import Mathlib

/-!
Shallow embedding of the Long-Term Feature Bank (LFB) module
(mmaction/models/common/lfb.py) and proofs about its sampling,
loading, construction and query-parsing behaviour.

Modelling conventions:
* Feature vectors are lists of rationals; a fresh zero tensor row is a
  list of zero rationals.  Numeric dtype and device placement are not
  modelled.
* A Python dict is modelled as a function into Option; absence of a key
  is none.  FeatureRecord models one entry of the bank (a dict from
  second to the list of roi feature vectors stored at that second);
  FeatureBank models the merged dict from video id to FeatureRecord.
* The global numpy RNG is modelled as a family of integer streams, one
  stream per window offset; np.random.choice(range(n), m, replace=False)
  is modelled as an explicit draw-without-replacement procedure driven
  by such a stream (repeatedly pick a position in the remaining pool and
  remove it).  Every without-replacement outcome of the library call is
  an outcome of this procedure for some stream, and conversely.
* torch.save followed by torch.load is modelled as an exact round trip,
  so the lmdb store holds FeatureRecord values directly; txn.get on an
  absent key yields none, and torch.load applied to that missing buffer
  fails (modelled as loadError).
* Python exceptions are modelled with Except: KeyError from a dict
  lookup, ValueError from parsing or from construction checks, the
  AssertionError guarding the lmdb import as dependencyError.
-/

abbrev FeatureVec : Type := List ℚ

abbrev FeatureRecord : Type := Int → Option (List FeatureVec)

abbrev FeatureBank : Type := String → Option FeatureRecord

/-- Row of zeros, as produced by torch.zeros for one row of lt_feats. -/
def zeroVec (ch : Nat) : FeatureVec := List.replicate ch 0

/-- Model of drawing m elements without replacement from a pool, driven by
the integer stream rs: pick the position rs.headD 0 mod pool.length,
output that element, remove it from the pool and continue. -/
def drawFrom : List Nat → Nat → List Nat → List Nat
  | _, 0, _ => []
  | rs, m + 1, pool =>
    if pool.length = 0 then []
    else
      let j := rs.headD 0 % pool.length
      pool.getD j 0 :: drawFrom rs.tail m (pool.eraseIdx j)

/-- Model of np.random.choice(range(n), m, replace=False) under the
stream rs. -/
def npRandomChoice (rs : List Nat) (n m : Nat) : List Nat :=
  drawFrom rs m (List.range n)

/-- The random_lfb_indices drawn for one second of the window:
np.random.choice(range(num_feat), min(num_feat, K), replace=False). -/
def chosenIndices (K : Nat) (feats : List FeatureVec) (rs : List Nat) : List Nat :=
  npRandomChoice rs feats.length (min feats.length K)

/-- Row r of lt_feats after the sampling loop: with i = r / K and
k = r % K, the loop body writes lt_feats[i * K + k] =
video_features[sec][random_lfb_indices[k]] for k < len(random_lfb_indices)
when sec = start + i is a key of video_features, and leaves the
torch.zeros row otherwise. -/
def sampleRow (K ch : Nat) (video_features : FeatureRecord) (start : Int)
    (rs : Nat → List Nat) (r : Nat) : FeatureVec :=
  match video_features (start + (r / K : Nat)) with
  | none => zeroVec ch
  | some feats =>
    let idxs := chosenIndices K feats (rs (r / K))
    if r % K < idxs.length then feats.getD (idxs.getD (r % K) 0) (zeroVec ch)
    else zeroVec ch

/-- Model of LFB.sample_long_term_features given the resolved
video_features record: start = timestamp - window_size // 2, the output
has window_size * K rows of which row i * K + k is filled from the draw
for second start + i when possible and is zero otherwise. -/
def sample_long_term_features (ws K ch : Nat) (video_features : FeatureRecord)
    (timestamp : Int) (rs : Nat → List Nat) : List FeatureVec :=
  (List.range (ws * K)).map (sampleRow K ch video_features (timestamp - (ws : Int) / 2) rs)

/-- Model of Python dict.update restricted to lookup behaviour: a key
defined in d2 resolves to the d2 value, otherwise to the d1 value. -/
def dictUpdate (d1 d2 : FeatureBank) : FeatureBank :=
  fun k =>
    match d2 k with
    | some v => some v
    | none => d1 k

/-- Model of LFB.load_lfb: start from the empty dict and update with each
partition (one per dataset_mode) in order. -/
def load_lfb (partitions : List FeatureBank) : FeatureBank :=
  partitions.foldl dictUpdate (fun _ => none)

/-- The value of the last partition in the list that defines the key,
if any. -/
def lastDefining : List FeatureBank → String → Option FeatureRecord
  | [], _ => none
  | p :: ps, k =>
    match lastDefining ps k with
    | some v => some v
    | none => p k

/-- Model of LFB.load_lfb_on_lmdb: the same key-wise merge of the
partitions, then every (key, value) pair is stored under the key; with
serialization modelled as an exact round trip the resulting store maps
each key to the merged value. -/
def load_lfb_on_lmdb (partitions : List FeatureBank) : String → Option FeatureRecord :=
  fun key => load_lfb partitions key

inductive LFBDevice : Type
  | gpu : LFBDevice
  | cpu : LFBDevice
  | lmdb : LFBDevice
deriving DecidableEq

/-- State of a constructed LFB instance: the selected device, the merged
in-memory bank (gpu and cpu devices), the lmdb store (lmdb device) and
the sampling configuration. -/
structure LFBState : Type where
  device : LFBDevice
  lfb : FeatureBank
  lmdbStore : String → Option FeatureRecord
  window_size : Nat
  max_num_sampled_feat : Nat
  lfb_channels : Nat

inductive QueryError : Type
  | keyError : QueryError
  | loadError : QueryError
  | valueError : QueryError
deriving DecidableEq

/-- Model of torch.load(io.BytesIO(buf)) where buf = txn.get(key): a
missing key gives buf = None, io.BytesIO(None) is an empty stream, and
torch.load fails on it. -/
def torchLoadBuf : Option FeatureRecord → Except QueryError FeatureRecord
  | some r => .ok r
  | none => .error .loadError

/-- Resolution of video_features at the start of
sample_long_term_features: the lmdb branch reads and deserializes from
the store, the gpu and cpu branches perform the dict lookup
self.lfb[video_id], which raises KeyError on an absent key. -/
def getVideoFeatures (st : LFBState) (video_id : String) : Except QueryError FeatureRecord :=
  match st.device with
  | .lmdb => torchLoadBuf (st.lmdbStore video_id)
  | _ =>
    match st.lfb video_id with
    | some r => .ok r
    | none => .error .keyError

/-- Full query: resolve the record through the backend, then sample. -/
def sampleQuery (st : LFBState) (video_id : String) (timestamp : Int)
    (rs : Nat → List Nat) : Except QueryError (List FeatureVec) :=
  (getVideoFeatures st video_id).map
    (fun vf =>
      sample_long_term_features st.window_size st.max_num_sampled_feat st.lfb_channels
        vf timestamp rs)

/-- Whether video_id is absent from the backend the state uses. -/
def entityAbsent (st : LFBState) (video_id : String) : Prop :=
  match st.device with
  | .lmdb => st.lmdbStore video_id = none
  | _ => st.lfb video_id = none

inductive InitError : Type
  | configError : InitError
  | dependencyError : InitError
deriving DecidableEq

/-- Model of LFB.__init__: first the existence check on lfb_prefix_path
(ValueError), then the branch on device: gpu and cpu load the merged
bank in memory, lmdb asserts that the lmdb library was imported
(AssertionError, a dependency error) and builds or opens the store, and
any other device name raises ValueError.  The partitions argument stands
for the deserialized lfb_{dataset_mode}.pkl files. -/
def lfb_init (pathExists : Bool) (device : String) (lmdbImported : Bool)
    (partitions : List FeatureBank) (ws K ch : Nat) : Except InitError LFBState :=
  if pathExists = false then .error .configError
  else if device = "gpu" then
    .ok ⟨.gpu, load_lfb partitions, fun _ => none, ws, K, ch⟩
  else if device = "cpu" then
    .ok ⟨.cpu, load_lfb partitions, fun _ => none, ws, K, ch⟩
  else if device = "lmdb" then
    if lmdbImported = false then .error .dependencyError
    else .ok ⟨.lmdb, fun _ => none, load_lfb_on_lmdb partitions, ws, K, ch⟩
  else .error .configError

/-- Model of str.split for the one-character separator used by
LFB.__getitem__. -/
def splitComma : List Char → List (List Char)
  | [] => [[]]
  | c :: rest =>
    if c = ',' then [] :: splitComma rest
    else
      match splitComma rest with
      | [] => [[c]]
      | g :: gs => (c :: g) :: gs

/-- Value of an ASCII decimal digit. -/
def digitVal (c : Char) : Option Nat :=
  if c.isDigit then some (c.toNat - 48) else none

/-- Digits of a Python int literal after the first digit: further digits
possibly separated by single underscores. -/
def pyDigitsAux : List Char → Nat → Option Nat
  | [], acc => some acc
  | '_' :: rest, acc =>
    match rest with
    | [] => none
    | c :: rest2 =>
      match digitVal c with
      | some d => pyDigitsAux rest2 (acc * 10 + d)
      | none => none
  | c :: rest, acc =>
    match digitVal c with
    | some d => pyDigitsAux rest (acc * 10 + d)
    | none => none

/-- Nonempty digit run with optional single underscores between digits. -/
def pyDigits : List Char → Option Nat
  | [] => none
  | c :: rest =>
    match digitVal c with
    | some d => pyDigitsAux rest d
    | none => none

/-- ASCII whitespace stripped by int(str). -/
def isPySpace (c : Char) : Bool :=
  c = ' ' || c = '\t' || c = '\n' || c = '\r' || c = '\x0b' || c = '\x0c'

/-- Model of the Python builtin int applied to a string (restricted to
ASCII): strip whitespace, allow one optional sign, then require a
nonempty digit run; none models ValueError. -/
def pythonInt (s : List Char) : Option Int :=
  let t := ((s.dropWhile isPySpace).reverse.dropWhile isPySpace).reverse
  match t with
  | '+' :: rest => (pyDigits rest).map (fun n => (n : Int))
  | '-' :: rest => (pyDigits rest).map (fun n => -(n : Int))
  | rest => (pyDigits rest).map (fun n => (n : Int))

/-- Model of LFB.__getitem__: split the key on the separator, require
exactly two segments (the tuple unpacking raises ValueError otherwise),
parse the second as an integer (int raises ValueError on failure) and
delegate to the windowed sampler. -/
def lfb_getitem (st : LFBState) (rs : Nat → List Nat) (img_key : List Char) :
    Except QueryError (List FeatureVec) :=
  match splitComma img_key with
  | [vid, ts] =>
    match pythonInt ts with
    | some t => sampleQuery st (String.mk vid) t rs
    | none => .error .valueError
  | _ => .error .valueError

/-- Rows i * K .. i * K + K - 1 of a sampled block: the segment of the
output belonging to window offset i. -/
def segmentRows (K : Nat) (block : List FeatureVec) (i : Nat) : List FeatureVec :=
  (List.range K).map (fun k => block.getD (i * K + k) [])

/-- Number of rows of segment i of the block that are not the zero row. -/
def nonzeroRowCount (K ch : Nat) (block : List FeatureVec) (i : Nat) : Nat :=
  ((segmentRows K block i).filter (fun row => decide (row ≠ zeroVec ch))).length

/-! Concrete data used by witnesses and counterexamples.  exRec is the
scenario of the spec: window_size = 4, max_num_sampled_feat = 2,
lfb_channels = 3, two vectors stored at second 10 and one at second 11. -/

def exRec : FeatureRecord := fun s =>
  if s = 10 then some [[1, 1, 1], [2, 2, 2]]
  else if s = 11 then some [[9, 9, 9]]
  else none

/-- Fixed randomness stream: every draw takes position 0 of the pool. -/
def exRs : Nat → List Nat := fun _ => [0]

def exRecA : FeatureRecord := fun _ => some [[1]]

def exRecB : FeatureRecord := fun _ => some [[2]]

def exBankA : FeatureBank := fun k => if k = "x" then some exRecA else none

def exBankB : FeatureBank := fun k => if k = "x" then some exRecB else none

def exStateGpu : LFBState := ⟨.gpu, exBankA, fun _ => none, 4, 2, 3⟩

def exStateEmpty : LFBState := ⟨.gpu, fun _ => none, fun _ => none, 4, 2, 3⟩

/-- Record holding exactly one stored feature vector that happens to be
the zero vector, at second 0. -/
def zRec : FeatureRecord := fun s => if s = 0 then some [[0]] else none

/-! Helper lemmas about the draw-without-replacement model. -/

theorem drawFrom_length (m : Nat) : ∀ (rs pool : List Nat),
    (drawFrom rs m pool).length = min m pool.length := by
  induction m with
  | zero => intro rs pool; simp [drawFrom]
  | succ m ih =>
    intro rs pool
    by_cases h : pool.length = 0
    · simp [drawFrom, h]
    · have hpos : 0 < pool.length := Nat.pos_of_ne_zero h
      have hj : rs.headD 0 % pool.length < pool.length := Nat.mod_lt _ hpos
      simp only [drawFrom, if_neg h, List.length_cons, ih]
      rw [List.length_eraseIdx]
      simp only [if_pos hj]
      omega

theorem drawFrom_mem (m : Nat) : ∀ (rs pool : List Nat) (x : Nat),
    x ∈ drawFrom rs m pool → x ∈ pool := by
  induction m with
  | zero => intro rs pool x hx; simp [drawFrom] at hx
  | succ m ih =>
    intro rs pool x hx
    by_cases h : pool.length = 0
    · simp [drawFrom, h] at hx
    · have hpos : 0 < pool.length := Nat.pos_of_ne_zero h
      have hj : rs.headD 0 % pool.length < pool.length := Nat.mod_lt _ hpos
      simp only [drawFrom, if_neg h, List.mem_cons] at hx
      rcases hx with hx | hx
      · rw [hx, List.getD_eq_getElem pool 0 hj]
        exact List.getElem_mem hj
      · exact (List.eraseIdx_sublist pool _).mem (ih _ _ _ hx)

theorem drawFrom_nodup (m : Nat) : ∀ (rs pool : List Nat),
    pool.Nodup → (drawFrom rs m pool).Nodup := by
  induction m with
  | zero => intro rs pool _; simp [drawFrom]
  | succ m ih =>
    intro rs pool hnd
    by_cases h : pool.length = 0
    · simp [drawFrom, h]
    · have hpos : 0 < pool.length := Nat.pos_of_ne_zero h
      have hj : rs.headD 0 % pool.length < pool.length := Nat.mod_lt _ hpos
      simp only [drawFrom, if_neg h, List.nodup_cons]
      refine ⟨?_, ih _ _ ((List.eraseIdx_sublist pool _).nodup hnd)⟩
      intro hmem
      have hmem2 : pool.getD (rs.headD 0 % pool.length) 0 ∈
          pool.eraseIdx (rs.headD 0 % pool.length) :=
        drawFrom_mem m _ _ _ hmem
      rw [List.mem_eraseIdx_iff_getElem] at hmem2
      obtain ⟨i, hi, hne, heq⟩ := hmem2
      rw [List.getD_eq_getElem pool 0 hj] at heq
      exact hne ((hnd.getElem_inj_iff).mp heq)

theorem npRandomChoice_length (rs : List Nat) (n m : Nat) :
    (npRandomChoice rs n m).length = min m n := by
  rw [npRandomChoice, drawFrom_length, List.length_range]

theorem npRandomChoice_nodup (rs : List Nat) (n m : Nat) :
    (npRandomChoice rs n m).Nodup :=
  drawFrom_nodup m rs _ (List.nodup_range n)

theorem npRandomChoice_lt (rs : List Nat) (n m x : Nat)
    (hx : x ∈ npRandomChoice rs n m) : x < n :=
  List.mem_range.mp (drawFrom_mem m rs _ x hx)

theorem chosenIndices_length (K : Nat) (feats : List FeatureVec) (rs : List Nat) :
    (chosenIndices K feats rs).length = min feats.length K := by
  rw [chosenIndices, npRandomChoice_length]
  omega

theorem chosenIndices_nodup (K : Nat) (feats : List FeatureVec) (rs : List Nat) :
    (chosenIndices K feats rs).Nodup :=
  npRandomChoice_nodup rs feats.length (min feats.length K)

theorem chosenIndices_lt (K : Nat) (feats : List FeatureVec) (rs : List Nat) (x : Nat)
    (hx : x ∈ chosenIndices K feats rs) : x < feats.length :=
  npRandomChoice_lt rs feats.length (min feats.length K) x hx

/-! Helper lemmas about rows of the sampled block. -/

theorem sample_length (ws K ch : Nat) (vf : FeatureRecord) (ts : Int)
    (rs : Nat → List Nat) :
    (sample_long_term_features ws K ch vf ts rs).length = ws * K := by
  rw [sample_long_term_features, List.length_map, List.length_range]

theorem sample_getD (ws K ch : Nat) (vf : FeatureRecord) (ts : Int)
    (rs : Nat → List Nat) (r : Nat) (hr : r < ws * K) :
    (sample_long_term_features ws K ch vf ts rs).getD r [] =
      sampleRow K ch vf (ts - (ws : Int) / 2) rs r := by
  rw [sample_long_term_features, List.getD_eq_getElem?_getD, List.getElem?_map,
    List.getElem?_range (by simpa using hr)]
  rfl

theorem sampleRow_eval (K ch : Nat) (vf : FeatureRecord) (start : Int)
    (rs : Nat → List Nat) (i k : Nat) (hk : k < K) :
    sampleRow K ch vf start rs (i * K + k) =
      match vf (start + i) with
      | none => zeroVec ch
      | some feats =>
        if k < (chosenIndices K feats (rs i)).length then
          feats.getD ((chosenIndices K feats (rs i)).getD k 0) (zeroVec ch)
        else zeroVec ch := by
  have hK : 0 < K := Nat.lt_of_le_of_lt (Nat.zero_le k) hk
  have hdiv : (i * K + k) / K = i := by
    rw [Nat.mul_comm i K, Nat.mul_add_div hK, Nat.div_eq_of_lt hk]
    omega
  have hmod : (i * K + k) % K = k := by
    rw [Nat.mul_comm i K, Nat.mul_add_mod, Nat.mod_eq_of_lt hk]
  rw [sampleRow, hdiv, hmod]

theorem sample_row_in_segment (ws K ch : Nat) (vf : FeatureRecord) (ts : Int)
    (rs : Nat → List Nat) (i k : Nat) (hi : i < ws) (hk : k < K) :
    (sample_long_term_features ws K ch vf ts rs).getD (i * K + k) [] =
      match vf (ts - (ws : Int) / 2 + i) with
      | none => zeroVec ch
      | some feats =>
        if k < (chosenIndices K feats (rs i)).length then
          feats.getD ((chosenIndices K feats (rs i)).getD k 0) (zeroVec ch)
        else zeroVec ch := by
  have hr : i * K + k < ws * K :=
    calc i * K + k < (i + 1) * K := by rw [Nat.succ_mul]; omega
    _ ≤ ws * K := Nat.mul_le_mul_right K hi
  rw [sample_getD ws K ch vf ts rs _ hr, sampleRow_eval K ch vf _ rs i k hk]

/-- Zero fill: if no second of the window is a key of the record, every
row of the block is the zero row. -/
theorem sample_all_zero (ws K ch : Nat) (vf : FeatureRecord) (ts : Int)
    (rs : Nat → List Nat)
    (h : ∀ sec : Int, ts - (ws : Int) / 2 ≤ sec → sec < ts - (ws : Int) / 2 + ws →
      vf sec = none) :
    sample_long_term_features ws K ch vf ts rs = List.replicate (ws * K) (zeroVec ch) := by
  rw [List.eq_replicate_iff]
  refine ⟨sample_length ws K ch vf ts rs, ?_⟩
  intro b hb
  rw [sample_long_term_features, List.mem_map] at hb
  obtain ⟨r, hr, rfl⟩ := hb
  rw [List.mem_range] at hr
  have hK : 0 < K := by
    rcases Nat.eq_zero_or_pos K with h0 | h0
    · rw [h0, Nat.mul_zero] at hr
      exact absurd hr (Nat.not_lt_zero r)
    · exact h0
  have hiws : r / K < ws := (Nat.div_lt_iff_lt_mul hK).mpr hr
  have hnone : vf (ts - (ws : Int) / 2 + (r / K : Nat)) = none := by
    refine h _ (Int.le_add_of_nonneg_right (Int.ofNat_nonneg _)) ?_
    have hcast : ((r / K : Nat) : Int) < (ws : Int) := by exact_mod_cast hiws
    exact add_lt_add_left hcast _
  rw [sampleRow, hnone]

/-- Counting helper: the number of elements of range K satisfying q is n
when q holds below n and fails from n up to K. -/
theorem filter_range_count (K n : Nat) (q : Nat → Bool) (hn : n ≤ K)
    (h1 : ∀ k, k < n → q k = true) (h2 : ∀ k, n ≤ k → k < K → q k = false) :
    ((List.range K).filter q).length = n := by
  induction K with
  | zero => simp at hn; simp [hn]
  | succ K ih =>
    rw [List.range_succ, List.filter_append, List.length_append]
    rcases Nat.lt_or_ge n (K + 1) with hcase | hcase
    · have hnK : n ≤ K := by omega
      rw [ih hnK (fun k hk1 hk2 => h2 k hk1 (by omega))]
      have : q K = false := h2 K hnK (by omega)
      simp [this]
    · have hn1 : n = K + 1 := by omega
      have hall : (List.range K).filter q = List.range K :=
        List.filter_eq_self.mpr (fun a ha => h1 a (by rw [List.mem_range] at ha; omega))
      have hqK : q K = true := h1 K (by omega)
      rw [hall, List.length_range]
      simp [hqK, hn1]

theorem sample_row_some (ws K ch : Nat) (vf : FeatureRecord) (ts : Int)
    (rs : Nat → List Nat) (i k : Nat) (feats : List FeatureVec) (hi : i < ws) (hk : k < K)
    (hf : vf (ts - (ws : Int) / 2 + i) = some feats) :
    (sample_long_term_features ws K ch vf ts rs).getD (i * K + k) [] =
      if k < (chosenIndices K feats (rs i)).length then
        feats.getD ((chosenIndices K feats (rs i)).getD k 0) (zeroVec ch)
      else zeroVec ch := by
  rw [sample_row_in_segment ws K ch vf ts rs i k hi hk, hf]

theorem sample_row_none (ws K ch : Nat) (vf : FeatureRecord) (ts : Int)
    (rs : Nat → List Nat) (i k : Nat) (hi : i < ws) (hk : k < K)
    (hf : vf (ts - (ws : Int) / 2 + i) = none) :
    (sample_long_term_features ws K ch vf ts rs).getD (i * K + k) [] = zeroVec ch := by
  rw [sample_row_in_segment ws K ch vf ts rs i k hi hk, hf]

/-! Helper lemma about the key-wise merge. -/

theorem foldl_dictUpdate (ps : List FeatureBank) : ∀ (init : FeatureBank) (k : String),
    (ps.foldl dictUpdate init) k =
      match lastDefining ps k with
      | some v => some v
      | none => init k := by
  induction ps with
  | nil => intro init k; rfl
  | cons p ps ih =>
    intro init k
    rw [List.foldl_cons, ih]
    cases hps : lastDefining ps k with
    | some v => simp [lastDefining, hps]
    | none =>
      cases hp : p k with
      | some v => simp [lastDefining, hps, hp, dictUpdate]
      | none => simp [lastDefining, hps, hp, dictUpdate]

/-! Helper lemmas about the key split. -/

theorem splitComma_no_sep (a : List Char) (h : ',' ∉ a) : splitComma a = [a] := by
  induction a with
  | nil => rfl
  | cons c rest ih =>
    have hc : ¬ c = ',' := fun hh => h (hh ▸ List.mem_cons_self c rest)
    have hrest : ',' ∉ rest := fun hh => h (List.mem_cons_of_mem c hh)
    simp [splitComma, hc, ih hrest]

theorem splitComma_append (a b : List Char) (h : ',' ∉ a) :
    splitComma (a ++ ',' :: b) = a :: splitComma b := by
  induction a with
  | nil => simp [splitComma]
  | cons c rest ih =>
    have hc : ¬ c = ',' := fun hh => h (hh ▸ List.mem_cons_self c rest)
    have hrest : ',' ∉ rest := fun hh => h (List.mem_cons_of_mem c hh)
    simp [splitComma, hc, ih hrest]

/-- C1: for every entity record and integer timestamp, the sampled block
has window_size * max_num_sampled_feat rows (of lfb_channels entries each
when the stored vectors respect the configured dimensionality, since the
code copies stored vectors verbatim), and for each window offset i with
sec = start + i where start = timestamp - window_size // 2: if sec is a
key with f stored features, rows i*K .. i*K + min(f, K) - 1 hold a
without-replacement selection of those features in the draw order and the
remaining rows of the segment are zero; if sec is not a key, the whole
segment is zero. -/
theorem C1_sampled_block_structure (ws K ch : Nat) (vf : FeatureRecord) (ts : Int)
    (rs : Nat → List Nat) (i : Nat) (hi : i < ws) :
    (sample_long_term_features ws K ch vf ts rs).length = ws * K ∧
    ((∀ sec feats, vf sec = some feats → ∀ v ∈ feats, v.length = ch) →
      ∀ row ∈ sample_long_term_features ws K ch vf ts rs, row.length = ch) ∧
    (∀ feats, vf (ts - (ws : Int) / 2 + i) = some feats →
      ∃ sel : List Nat,
        sel.Nodup ∧ sel.length = min feats.length K ∧ (∀ j ∈ sel, j < feats.length) ∧
        (∀ k, k < sel.length →
          (sample_long_term_features ws K ch vf ts rs).getD (i * K + k) [] =
            feats.getD (sel.getD k 0) (zeroVec ch)) ∧
        (∀ k, sel.length ≤ k → k < K →
          (sample_long_term_features ws K ch vf ts rs).getD (i * K + k) [] = zeroVec ch)) ∧
    (vf (ts - (ws : Int) / 2 + i) = none →
      ∀ k, k < K →
        (sample_long_term_features ws K ch vf ts rs).getD (i * K + k) [] = zeroVec ch) := by
  refine ⟨sample_length ws K ch vf ts rs, ?_, ?_, ?_⟩
  · intro hch row hrow
    rw [sample_long_term_features, List.mem_map] at hrow
    obtain ⟨r, hr, rfl⟩ := hrow
    rw [sampleRow]
    cases hv : vf (ts - (ws : Int) / 2 + (r / K : Nat)) with
    | none => simp [zeroVec]
    | some feats =>
      by_cases hlt : r % K < (chosenIndices K feats (rs (r / K))).length
      · simp only [if_pos hlt]
        have hmem : (chosenIndices K feats (rs (r / K))).getD (r % K) 0 ∈
            chosenIndices K feats (rs (r / K)) := by
          rw [List.getD_eq_getElem _ _ hlt]
          exact List.getElem_mem hlt
        have hidxlt := chosenIndices_lt _ _ _ _ hmem
        rw [List.getD_eq_getElem _ _ hidxlt]
        exact hch _ _ hv _ (List.getElem_mem hidxlt)
      · simp [if_neg hlt, zeroVec]
  · intro feats hf
    refine ⟨chosenIndices K feats (rs i), chosenIndices_nodup _ _ _,
      chosenIndices_length _ _ _, fun j hj => chosenIndices_lt _ _ _ j hj, ?_, ?_⟩
    · intro k hk
      have hkK : k < K := by
        have := chosenIndices_length K feats (rs i)
        omega
      rw [sample_row_some ws K ch vf ts rs i k feats hi hkK hf, if_pos hk]
    · intro k hk1 hk2
      rw [sample_row_some ws K ch vf ts rs i k feats hi hk2 hf, if_neg (not_lt.mpr hk1)]
  · intro hnone k hk
    exact sample_row_none ws K ch vf ts rs i k hi hk hnone

/-- Witness for C1 at the scenario of the spec: window_size = 4, K = 2,
channels = 3, record exRec, timestamp 11, window offset i = 1 (second
10, which holds two features). -/
theorem C1_witness :
    (sample_long_term_features 4 2 3 exRec 11 exRs).length = 4 * 2 ∧
    ((∀ sec feats, exRec sec = some feats → ∀ v ∈ feats, v.length = 3) →
      ∀ row ∈ sample_long_term_features 4 2 3 exRec 11 exRs, row.length = 3) ∧
    (∀ feats, exRec (11 - (4 : Int) / 2 + 1) = some feats →
      ∃ sel : List Nat,
        sel.Nodup ∧ sel.length = min feats.length 2 ∧ (∀ j ∈ sel, j < feats.length) ∧
        (∀ k, k < sel.length →
          (sample_long_term_features 4 2 3 exRec 11 exRs).getD (1 * 2 + k) [] =
            feats.getD (sel.getD k 0) (zeroVec 3)) ∧
        (∀ k, sel.length ≤ k → k < 2 →
          (sample_long_term_features 4 2 3 exRec 11 exRs).getD (1 * 2 + k) [] = zeroVec 3)) ∧
    (exRec (11 - (4 : Int) / 2 + 1) = none →
      ∀ k, k < 2 →
        (sample_long_term_features 4 2 3 exRec 11 exRs).getD (1 * 2 + k) [] = zeroVec 3) :=
  C1_sampled_block_structure 4 2 3 exRec 11 exRs 1 (by decide)

/-- C2: when the record has no features at any second of the window, the
block is entirely zero and has shape (window_size * K, channels). -/
theorem C2_zero_fill_window (ws K ch : Nat) (vf : FeatureRecord) (ts : Int)
    (rs : Nat → List Nat)
    (h : ∀ sec : Int, ts - (ws : Int) / 2 ≤ sec → sec < ts - (ws : Int) / 2 + ws →
      vf sec = none) :
    sample_long_term_features ws K ch vf ts rs = List.replicate (ws * K) (zeroVec ch) ∧
    (sample_long_term_features ws K ch vf ts rs).length = ws * K ∧
    (∀ row ∈ sample_long_term_features ws K ch vf ts rs, row.length = ch) := by
  have hz := sample_all_zero ws K ch vf ts rs h
  refine ⟨hz, sample_length ws K ch vf ts rs, ?_⟩
  intro row hrow
  rw [hz, List.mem_replicate] at hrow
  rw [hrow.2, zeroVec, List.length_replicate]

/-- Witness for C2: a record with no features anywhere. -/
theorem C2_witness :
    sample_long_term_features 4 2 3 (fun _ => none) 0 exRs =
      List.replicate (4 * 2) (zeroVec 3) ∧
    (sample_long_term_features 4 2 3 (fun _ => none) 0 exRs).length = 4 * 2 ∧
    (∀ row ∈ sample_long_term_features 4 2 3 (fun _ => none) 0 exRs, row.length = 3) :=
  C2_zero_fill_window 4 2 3 (fun _ => none) 0 exRs (fun _ _ _ => rfl)

/-- Counterexample to C3 as stated: the claim says the number of
non-zero rows a second with f recorded features contributes is exactly
min(f, K).  The code copies min(f, K) stored vectors into the block, but
when a stored vector is itself the zero vector the copied row is
indistinguishable from zero fill: with window_size = K = channels = 1,
a record holding exactly one stored vector [0] at second 0 and
timestamp 0, the segment of second 0 has 0 non-zero rows while
min(f, K) = 1. -/
theorem C3_counterexample :
    zRec 0 = some [[(0 : ℚ)]] ∧
    ¬ nonzeroRowCount 1 1 (sample_long_term_features 1 1 1 zRec 0 exRs) 0 =
        min [[(0 : ℚ)]].length 1 := by
  decide

/-- C3 (amended): for any window offset whose second holds f recorded
features, the number of non-zero rows that second contributes to the
block never exceeds min(f, K), and equals min(f, K) whenever every
stored vector at that second is itself non-zero. -/
theorem C3_nonzero_row_count (ws K ch : Nat) (vf : FeatureRecord) (ts : Int)
    (rs : Nat → List Nat) (i : Nat) (feats : List FeatureVec) (hi : i < ws)
    (hf : vf (ts - (ws : Int) / 2 + i) = some feats) :
    nonzeroRowCount K ch (sample_long_term_features ws K ch vf ts rs) i ≤
      min feats.length K ∧
    ((∀ v ∈ feats, v ≠ zeroVec ch) →
      nonzeroRowCount K ch (sample_long_term_features ws K ch vf ts rs) i =
        min feats.length K) := by
  have hlen := chosenIndices_length K feats (rs i)
  have hnK : min feats.length K ≤ K := Nat.min_le_right _ _
  have hrow : ∀ k, k < K →
      (sample_long_term_features ws K ch vf ts rs).getD (i * K + k) [] =
        if k < (chosenIndices K feats (rs i)).length then
          feats.getD ((chosenIndices K feats (rs i)).getD k 0) (zeroVec ch)
        else zeroVec ch :=
    fun k hk => sample_row_some ws K ch vf ts rs i k feats hi hk hf
  rw [nonzeroRowCount, segmentRows, List.filter_map, List.length_map]
  constructor
  · rw [← List.countP_eq_length_filter]
    have hle : List.countP
        ((fun row => decide (row ≠ zeroVec ch)) ∘
          (fun k => (sample_long_term_features ws K ch vf ts rs).getD (i * K + k) []))
        (List.range K) ≤
        List.countP (fun k => decide (k < min feats.length K)) (List.range K) := by
      apply List.countP_mono_left
      intro k hk hp
      rw [List.mem_range] at hk
      simp only [Function.comp_apply, decide_eq_true_eq] at hp
      by_contra hkn
      simp only [decide_eq_true_eq] at hkn
      have hkn2 : ¬ k < (chosenIndices K feats (rs i)).length := by omega
      rw [hrow k hk, if_neg hkn2] at hp
      exact hp rfl
    have heq : List.countP (fun k => decide (k < min feats.length K)) (List.range K) =
        min feats.length K := by
      rw [List.countP_eq_length_filter]
      exact filter_range_count K (min feats.length K) _ hnK
        (fun k hk => by simp [hk]) (fun k hk1 hk2 => by simp; omega)
    exact le_trans hle (le_of_eq heq)
  · intro hnz
    apply filter_range_count K (min feats.length K) _ hnK
    · intro k hk
      have hkK : k < K := by omega
      have hkl : k < (chosenIndices K feats (rs i)).length := by omega
      simp only [Function.comp_apply, hrow k hkK, if_pos hkl, decide_eq_true_eq]
      have hmem : (chosenIndices K feats (rs i)).getD k 0 ∈ chosenIndices K feats (rs i) := by
        rw [List.getD_eq_getElem _ _ hkl]
        exact List.getElem_mem hkl
      have hidxlt := chosenIndices_lt _ _ _ _ hmem
      rw [List.getD_eq_getElem _ _ hidxlt]
      exact hnz _ (List.getElem_mem hidxlt)
    · intro k hk1 hk2
      have hkl : ¬ k < (chosenIndices K feats (rs i)).length := by omega
      simp only [Function.comp_apply, hrow k hk2, if_neg hkl, decide_eq_true_eq]
      simp

/-- Witness for C3 (amended) at the scenario of the spec, window offset
i = 1, second 10 with two non-zero stored vectors. -/
theorem C3_witness :
    nonzeroRowCount 2 3 (sample_long_term_features 4 2 3 exRec 11 exRs) 1 ≤
      min [[(1 : ℚ), 1, 1], [2, 2, 2]].length 2 ∧
    ((∀ v ∈ [[(1 : ℚ), 1, 1], [2, 2, 2]], v ≠ zeroVec 3) →
      nonzeroRowCount 2 3 (sample_long_term_features 4 2 3 exRec 11 exRs) 1 =
        min [[(1 : ℚ), 1, 1], [2, 2, 2]].length 2) :=
  C3_nonzero_row_count 4 2 3 exRec 11 exRs 1 [[1, 1, 1], [2, 2, 2]] (by decide) (by decide)

/-- C4: the feature indices chosen for any one second of a query
(random_lfb_indices) are pairwise distinct for every possible outcome of
the random draw, because np.random.choice is called with
replace=False. -/
theorem C4_chosen_indices_nodup (K : Nat) (feats : List FeatureVec) (rs : List Nat) :
    (chosenIndices K feats rs).Nodup :=
  chosenIndices_nodup K feats rs

/-- C5: the in-memory load path merges the ordered partitions with
dict.update, so a key defined in several partitions resolves to the
value of the last partition that defines it; in particular for
partitions [A, B] both defining a key, the merged bank maps the key to
the B value. -/
theorem C5_merge_last_partition_wins :
    (∀ (partitions : List FeatureBank) (k : String),
      load_lfb partitions k = lastDefining partitions k) ∧
    (∀ (A B : FeatureBank) (x : String) (r : FeatureRecord),
      B x = some r → load_lfb [A, B] x = some r) := by
  have hgen : ∀ (partitions : List FeatureBank) (k : String),
      load_lfb partitions k = lastDefining partitions k := by
    intro partitions k
    rw [load_lfb, foldl_dictUpdate]
    cases lastDefining partitions k <;> rfl
  refine ⟨hgen, ?_⟩
  intro A B x r hB
  rw [hgen [A, B] x]
  simp [lastDefining, hB]

/-- Witness for C5: partitions [exBankA, exBankB] both define the key
"x"; the merged bank resolves it to the exBankB record. -/
theorem C5_witness : load_lfb [exBankA, exBankB] "x" = some exRecB :=
  C5_merge_last_partition_wins.2 exBankA exBankB "x" exRecB rfl

/-- C6: an entity id absent from the backend makes the query fail with
an error under every backend (the in-memory dict lookup raises KeyError;
the lmdb branch gets no buffer back and torch.load fails on it), never
returning a silent block; by contrast an entity that is present but has
no features at the sampled seconds returns the all-zero block without
error. -/
theorem C6_absent_entity_error (st : LFBState) (video_id : String) (ts : Int)
    (rs : Nat → List Nat) (h : entityAbsent st video_id) :
    (∃ e, sampleQuery st video_id ts rs = Except.error e) ∧
    (∀ b, sampleQuery st video_id ts rs ≠ Except.ok b) ∧
    (∀ (st2 : LFBState) (vid2 : String) (vf : FeatureRecord),
      getVideoFeatures st2 vid2 = Except.ok vf → (∀ sec, vf sec = none) →
      sampleQuery st2 vid2 ts rs =
        Except.ok (List.replicate (st2.window_size * st2.max_num_sampled_feat)
          (zeroVec st2.lfb_channels))) := by
  have herr : ∃ e, getVideoFeatures st video_id = Except.error e := by
    cases hd : st.device with
    | gpu =>
      simp only [entityAbsent, hd] at h
      exact ⟨QueryError.keyError, by simp [getVideoFeatures, hd, h]⟩
    | cpu =>
      simp only [entityAbsent, hd] at h
      exact ⟨QueryError.keyError, by simp [getVideoFeatures, hd, h]⟩
    | lmdb =>
      simp only [entityAbsent, hd] at h
      exact ⟨QueryError.loadError, by simp [getVideoFeatures, hd, h, torchLoadBuf]⟩
  obtain ⟨e, he⟩ := herr
  refine ⟨⟨e, by simp [sampleQuery, he, Except.map]⟩, ?_, ?_⟩
  · intro b hb
    rw [sampleQuery, he] at hb
    simp [Except.map] at hb
  · intro st2 vid2 vf hok hnone
    rw [sampleQuery, hok]
    simp only [Except.map]
    rw [sample_all_zero _ _ _ _ _ _ (fun sec _ _ => hnone sec)]

/-- Witness for C6: a gpu-backend state whose bank is empty; querying
the id missing fails. -/
theorem C6_witness :
    (∃ e, sampleQuery exStateEmpty "missing" 0 exRs = Except.error e) ∧
    (∀ b, sampleQuery exStateEmpty "missing" 0 exRs ≠ Except.ok b) ∧
    (∀ (st2 : LFBState) (vid2 : String) (vf : FeatureRecord),
      getVideoFeatures st2 vid2 = Except.ok vf → (∀ sec, vf sec = none) →
      sampleQuery st2 vid2 0 exRs =
        Except.ok (List.replicate (st2.window_size * st2.max_num_sampled_feat)
          (zeroVec st2.lfb_channels))) :=
  C6_absent_entity_error exStateEmpty "missing" 0 exRs rfl

/-- C7: a combined key of the form entity ++ "," ++ timestamp with an
integer timestamp segment resolves through the windowed sampler with the
parsed timestamp; a key that does not split into exactly two segments,
or whose timestamp segment is not an integer, fails with the parsing
error (ValueError). -/
theorem C7_getitem_parse (st : LFBState) (rs : Nat → List Nat) :
    (∀ (vid ts : List Char) (t : Int), ',' ∉ vid → ',' ∉ ts → pythonInt ts = some t →
      lfb_getitem st rs (vid ++ ',' :: ts) = sampleQuery st (String.mk vid) t rs) ∧
    (∀ key : List Char, (splitComma key).length ≠ 2 →
      lfb_getitem st rs key = Except.error QueryError.valueError) ∧
    (∀ (key a b : List Char), splitComma key = [a, b] → pythonInt b = none →
      lfb_getitem st rs key = Except.error QueryError.valueError) := by
  refine ⟨?_, ?_, ?_⟩
  · intro vid ts t hv ht hp
    rw [lfb_getitem, splitComma_append vid ts hv, splitComma_no_sep ts ht]
    show (match pythonInt ts with
      | some t => sampleQuery st (String.mk vid) t rs
      | none => Except.error QueryError.valueError) = sampleQuery st (String.mk vid) t rs
    rw [hp]
  · intro key hlen
    rw [lfb_getitem]
    rcases hs : splitComma key with _ | ⟨a, _ | ⟨b, _ | ⟨c, rest⟩⟩⟩
    · rfl
    · rfl
    · exact absurd (by rw [hs]; rfl) hlen
    · rfl
  · intro key a b hs hp
    rw [lfb_getitem, hs]
    show (match pythonInt b with
      | some t => sampleQuery st (String.mk a) t rs
      | none => Except.error QueryError.valueError) = Except.error QueryError.valueError
    rw [hp]

/-- Witness for C7: the key vid42,905 resolves to entity vid42 and
timestamp 905; the malformed key vid42 (no separator) fails with the
parsing error. -/
theorem C7_witness :
    lfb_getitem exStateGpu exRs ("vid42".toList ++ ',' :: "905".toList) =
      sampleQuery exStateGpu "vid42" 905 exRs ∧
    lfb_getitem exStateGpu exRs "vid42".toList = Except.error QueryError.valueError :=
  ⟨(C7_getitem_parse exStateGpu exRs).1 "vid42".toList "905".toList 905 (by decide)
      (by decide) (by decide),
    (C7_getitem_parse exStateGpu exRs).2.1 "vid42".toList (by decide)⟩

/-- C8: construction fails with a configuration error when the source
prefix path does not exist or the device name is unrecognized, and with
a dependency error when the lmdb device is requested while the lmdb
library is unavailable; in every such case no state is produced. -/
theorem C8_construction_errors (device : String) (lmdbImported : Bool)
    (partitions : List FeatureBank) (ws K ch : Nat) :
    (lfb_init false device lmdbImported partitions ws K ch =
      Except.error InitError.configError) ∧
    (∀ st, lfb_init false device lmdbImported partitions ws K ch ≠ Except.ok st) ∧
    (device ≠ "gpu" → device ≠ "cpu" → device ≠ "lmdb" →
      lfb_init true device lmdbImported partitions ws K ch =
        Except.error InitError.configError ∧
      ∀ st, lfb_init true device lmdbImported partitions ws K ch ≠ Except.ok st) ∧
    (lfb_init true "lmdb" false partitions ws K ch =
      Except.error InitError.dependencyError ∧
      ∀ st, lfb_init true "lmdb" false partitions ws K ch ≠ Except.ok st) := by
  refine ⟨rfl, ?_, ?_, rfl, ?_⟩
  · intro st hst
    rw [lfb_init] at hst
    simp at hst
  · intro h1 h2 h3
    constructor
    · simp [lfb_init, h1, h2, h3]
    · intro st hst
      simp [lfb_init, h1, h2, h3] at hst
  · intro st hst
    rw [lfb_init] at hst
    simp at hst

/-- Witness for C8: an unrecognized device name and the lmdb device
without the library. -/
theorem C8_witness :
    lfb_init false "disk" true [exBankA] 60 5 2048 = Except.error InitError.configError ∧
    lfb_init true "disk" true [exBankA] 60 5 2048 = Except.error InitError.configError ∧
    lfb_init true "lmdb" false [exBankA] 60 5 2048 =
      Except.error InitError.dependencyError :=
  ⟨(C8_construction_errors "disk" true [exBankA] 60 5 2048).1,
    ((C8_construction_errors "disk" true [exBankA] 60 5 2048).2.2.1 (by decide) (by decide)
      (by decide)).1,
    (C8_construction_errors "disk" true [exBankA] 60 5 2048).2.2.2.1⟩

/-- C9: for a fixed merged bank and fixed randomness, the gpu, cpu and
lmdb backends return the identical sampled block for the same
(entity, timestamp) query: all three resolve the same FeatureRecord
(the lmdb store is built by the same key-wise merge and the
serialization round trip is exact) and run the same sampling code. -/
theorem C9_backend_equivalence (partitions : List FeatureBank) (ws K ch : Nat)
    (vid : String) (ts : Int) (rs : Nat → List Nat) (vf : FeatureRecord) (li : Bool)
    (h : load_lfb partitions vid = some vf)
    (stG stC stL : LFBState)
    (hG : lfb_init true "gpu" li partitions ws K ch = Except.ok stG)
    (hC : lfb_init true "cpu" li partitions ws K ch = Except.ok stC)
    (hL : lfb_init true "lmdb" true partitions ws K ch = Except.ok stL) :
    sampleQuery stG vid ts rs = Except.ok (sample_long_term_features ws K ch vf ts rs) ∧
    sampleQuery stC vid ts rs = Except.ok (sample_long_term_features ws K ch vf ts rs) ∧
    sampleQuery stL vid ts rs = Except.ok (sample_long_term_features ws K ch vf ts rs) := by
  rw [show lfb_init true "gpu" li partitions ws K ch =
    Except.ok (⟨.gpu, load_lfb partitions, fun _ => none, ws, K, ch⟩ : LFBState) from rfl]
    at hG
  rw [show lfb_init true "cpu" li partitions ws K ch =
    Except.ok (⟨.cpu, load_lfb partitions, fun _ => none, ws, K, ch⟩ : LFBState) from rfl]
    at hC
  rw [show lfb_init true "lmdb" true partitions ws K ch =
    Except.ok (⟨.lmdb, fun _ => none, load_lfb_on_lmdb partitions, ws, K, ch⟩ : LFBState)
    from rfl] at hL
  injection hG with hG2
  injection hC with hC2
  injection hL with hL2
  subst hG2 hC2 hL2
  refine ⟨?_, ?_, ?_⟩
  · simp [sampleQuery, getVideoFeatures, h, Except.map]
  · simp [sampleQuery, getVideoFeatures, h, Except.map]
  · simp [sampleQuery, getVideoFeatures, load_lfb_on_lmdb, h, torchLoadBuf, Except.map]

/-- Witness for C9 on the one-partition bank exBankA holding entity
"x". -/
theorem C9_witness :
    sampleQuery ⟨.gpu, load_lfb [exBankA], fun _ => none, 4, 2, 3⟩ "x" 0 exRs =
      Except.ok (sample_long_term_features 4 2 3 exRecA 0 exRs) ∧
    sampleQuery ⟨.cpu, load_lfb [exBankA], fun _ => none, 4, 2, 3⟩ "x" 0 exRs =
      Except.ok (sample_long_term_features 4 2 3 exRecA 0 exRs) ∧
    sampleQuery ⟨.lmdb, fun _ => none, load_lfb_on_lmdb [exBankA], 4, 2, 3⟩ "x" 0 exRs =
      Except.ok (sample_long_term_features 4 2 3 exRecA 0 exRs) :=
  C9_backend_equivalence [exBankA] 4 2 3 "x" 0 exRs exRecA true rfl _ _ _ rfl rfl rfl
